import Mathlib

/-!
Verification of the AI-voice-detection core (src/core/audio_processor.py).

The feature values produced by the extractor are Python floats; we embed them
as rationals (ℚ), which models the exact arithmetic of the comparisons,
integer score accumulation, and the max/total division performed by
classify_voice. Strings are embedded as Lean String.
-/

namespace AudioProcessor

/-- The fields of the feature dictionary that classify_voice reads
(src/core/audio_processor.py, keys produced by extract_audio_features).
mfcc_var is the 13-element variance vector; classify_voice only uses its sum. -/
structure Features where
  spectral_flatness_std : ℚ
  pitch_std : ℚ
  pitch_range : ℚ
  zcr_std : ℚ
  rms_std : ℚ
  mfcc_var : List ℚ
  spectral_bandwidth_std : ℚ
  spectral_contrast_std : ℚ
deriving DecidableEq, Repr

/-- Rule 1 (lines 112-123): spectral flatness. Returns
(ai increment, human increment, appended reasons). -/
def rule1 (f : Features) : ℕ × ℕ × List String :=
  if f.spectral_flatness_std < 6/100 then
    (4, 0, ["Synthetic spectral structure detected"])
  else if f.spectral_flatness_std < 15/100 then
    (2, 0, ["Low spectral variance"])
  else
    (0, 1, ["Natural spectral variation"])

/-- Rule 2 (lines 125-142): pitch consistency, with the nested
wide-pitch-range / zcr check in the else branch. -/
def rule2 (f : Features) : ℕ × ℕ × List String :=
  if f.pitch_std < 50 then
    (3, 0, ["Unnatural pitch consistency"])
  else if f.pitch_std < 200 then
    (1, 0, [])
  else if f.pitch_range > 3000 then
    (if f.zcr_std > 1/10 then (0, 2, ["Wide pitch range"])
     else (0, 1, ["Wide pitch range"]))
  else
    (0, 0, [])

/-- Rule 3 (lines 144-149): zero crossing rate variation. -/
def rule3 (f : Features) : ℕ × ℕ × List String :=
  if f.zcr_std < 3/100 then (2, 0, ["Uniform rhythm patterns"])
  else (0, 1, [])

/-- Rule 4 (lines 151-156): energy variation (RMS). -/
def rule4 (f : Features) : ℕ × ℕ × List String :=
  if f.rms_std < 2/100 then (1, 0, ["Consistent energy levels"])
  else (0, 1, [])

/-- Rule 5 (lines 158-164): MFCC variance sum. -/
def rule5 (f : Features) : ℕ × ℕ × List String :=
  if f.mfcc_var.sum < 5 then (2, 0, ["Low spectral diversity"])
  else (0, 2, [])

/-- Rule 6 (lines 166-168): spectral bandwidth; no reason in either branch. -/
def rule6 (f : Features) : ℕ × ℕ × List String :=
  if f.spectral_bandwidth_std < 300 then (1, 0, [])
  else (0, 0, [])

/-- The override (lines 170-174): re-tests the rule 1 condition, adds 6 to
ai_score and inserts its reason at the FRONT of the reason list. -/
def overrideRule (f : Features) : ℕ × List String :=
  if f.spectral_flatness_std < 6/100 then
    (6, ["Strong synthetic spectral signature"])
  else
    (0, [])

/-- Rule 7 in the code comments (lines 176-183): spectral contrast. -/
def rule7 (f : Features) : ℕ × ℕ × List String :=
  if f.spectral_contrast_std < 5 then (1, 0, ["Low dynamic range"])
  else (0, 1, ["Dynamic spectral contrast"])

/-- Final value of the ai_score accumulator after all rules (lines 108-183). -/
def ai_score (f : Features) : ℕ :=
  (rule1 f).1 + (rule2 f).1 + (rule3 f).1 + (rule4 f).1 + (rule5 f).1 +
    (rule6 f).1 + (overrideRule f).1 + (rule7 f).1

/-- Final value of the human_score accumulator after all rules. -/
def human_score (f : Features) : ℕ :=
  (rule1 f).2.1 + (rule2 f).2.1 + (rule3 f).2.1 + (rule4 f).2.1 +
    (rule5 f).2.1 + (rule6 f).2.1 + (rule7 f).2.1

/-- Final reason list: rules 1-5 and 7 append in order; the override inserts
its reason at index 0 after rules 1-6 have run but before rule 7 runs, so the
final order is override reason first, then rules 1-5, then rule 7. -/
def reasonsOf (f : Features) : List String :=
  (overrideRule f).2 ++ ((rule1 f).2.2 ++ (rule2 f).2.2 ++ (rule3 f).2.2 ++
    (rule4 f).2.2 ++ (rule5 f).2.2) ++ (rule7 f).2.2

/-- total_score (line 186). -/
def total_score (f : Features) : ℕ := ai_score f + human_score f

/-- Confidence before clamping (lines 186-190). -/
def rawConfidence (f : Features) : ℚ :=
  if total_score f > 0 then
    (max (ai_score f) (human_score f) : ℚ) / (total_score f : ℚ)
  else 1/2

/-- Clamp into the calibrated band (line 193). -/
def clampConfidence (c : ℚ) : ℚ := max (55/100) (min (95/100) c)

/-- Round-half-to-even at integer precision, the semantics of Python round. -/
def roundHalfEven (q : ℚ) : ℤ :=
  let f := ⌊q⌋
  let r := q - f
  if r < 1/2 then f
  else if r > 1/2 then f + 1
  else if f % 2 = 0 then f else f + 1

/-- round(x, 2) (line 211). -/
def round2 (q : ℚ) : ℚ := (roundHalfEven (100 * q) : ℚ) / 100

/-- Keyword list used to select AI-related reasons (lines 199-200). -/
def aiKeywords : List String :=
  ["unnatural", "low", "uniform", "consistent", "limited"]

/-- Keyword list used to select human-related reasons (lines 205-206). -/
def humanKeywords : List String :=
  ["natural", "variation", "rich", "dynamic"]

/-- Python str.lower() on the ASCII reason strings, as a character list. -/
def lowerChars (s : String) : List Char :=
  s.toList.map Char.toLower

/-- Python: kw in r.lower(), substring containment against the lowercased
reason. -/
def kwMatches (r kw : String) : Bool :=
  decide (kw.toList <:+: lowerChars r)

/-- any(kw in r.lower() for kw in kws). -/
def matchesAny (kws : List String) (r : String) : Bool :=
  kws.any (fun kw => kwMatches r kw)

/-- Python "; ".join on a list of strings. -/
def joinSemi : List String → String
  | [] => ""
  | [r] => r
  | r :: rest => r ++ "; " ++ joinSemi rest

/-- Explanation construction shared by both branches (lines 196-207):
filter the reasons by the winning label's keywords, join the first 3 with
"; ", falling back to the first reason when nothing matches. The code
indexes reasons[0]; the list is provably never empty (rule 1 always appends),
so the headD default is unreachable. -/
def mkExplanation (kws : List String) (reasons : List String) : String :=
  let sel := reasons.filter (matchesAny kws)
  if sel.isEmpty then reasons.headD "" else joinSemi (sel.take 3)

/-- Result record returned by classify_voice (lines 209-213). -/
structure ClassifyResult where
  classification : String
  confidenceScore : ℚ
  explanation : String
deriving DecidableEq, Repr

/-- classify_voice (lines 100-213). -/
def classify_voice (f : Features) : ClassifyResult :=
  let conf := round2 (clampConfidence (rawConfidence f))
  if ai_score f > human_score f then
    { classification := "AI_GENERATED"
      confidenceScore := conf
      explanation := mkExplanation aiKeywords (reasonsOf f) }
  else
    { classification := "HUMAN"
      confidenceScore := conf
      explanation := mkExplanation humanKeywords (reasonsOf f) }

/-- The reason strings of the rule table (spec section 4.3). -/
def reasonTable : List String :=
  ["Synthetic spectral structure detected", "Low spectral variance",
   "Natural spectral variation", "Unnatural pitch consistency",
   "Wide pitch range", "Uniform rhythm patterns", "Consistent energy levels",
   "Low spectral diversity", "Strong synthetic spectral signature",
   "Low dynamic range", "Dynamic spectral contrast"]

/-! ### process_voice (lines 216-248)

extract_audio_features runs librosa on the raw bytes; in the embedding its
outcome is abstracted: it either returns a feature vector, raises
librosa.util.exceptions.ParameterError, or raises some other exception.
process_voice maps the three outcomes to the response envelope. -/

/-- Outcome of the try-block body up to feature extraction: success with a
feature vector, a librosa ParameterError with its message, or any other
exception with its message. -/
inductive LoadOutcome where
  | ok (features : Features)
  | parameterError (details : String)
  | otherError (details : String)

/-- Response envelope (spec section 3 / lines 234-248). -/
inductive Response where
  | success (language classification : String) (confidenceScore : ℚ)
      (explanation : String)
  | error (message : String)
deriving DecidableEq, Repr

def Response.isSuccess : Response → Bool
  | .success _ _ _ _ => true
  | .error _ => false

def Response.languageField : Response → Option String
  | .success l _ _ _ => some l
  | .error _ => none

def Response.classificationField : Response → Option String
  | .success _ c _ _ => some c
  | .error _ => none

def Response.confidenceField : Response → Option ℚ
  | .success _ _ c _ => some c
  | .error _ => none

def Response.explanationField : Response → Option String
  | .success _ _ _ e => some e
  | .error _ => none

def Response.messageField : Response → Option String
  | .success _ _ _ _ => none
  | .error m => some m

/-- process_voice (lines 216-248): classify on success, otherwise map the
exception to the documented error message. The language string is only ever
copied into the response. -/
def process_voice (outcome : LoadOutcome) (language : String) : Response :=
  match outcome with
  | .ok f =>
      let r := classify_voice f
      .success language r.classification r.confidenceScore r.explanation
  | .parameterError d => .error ("Invalid audio format: " ++ d)
  | .otherError d => .error ("Processing failed: " ++ d)

/-! ### Pitch aggregation inside extract_audio_features (lines 69-84)

librosa.piptrack returns two equally-shaped matrices (pitches, magnitudes);
the loop walks the frames (columns), takes the row index of the frame's
magnitude argmax, reads the pitch there and keeps it when strictly positive.
A frame is embedded as the pair of its pitch column and magnitude column. -/

/-- np.argmax: index of the first maximal element (0 on an empty list,
matching the first-occurrence convention on the lists we use). -/
def argmaxFrom (i bi : ℕ) (bv : ℚ) : List ℚ → ℕ
  | [] => bi
  | x :: xs => if x > bv then argmaxFrom (i+1) i x xs else argmaxFrom (i+1) bi bv xs

def argmax : List ℚ → ℕ
  | [] => 0
  | x :: xs => argmaxFrom 1 0 x xs

/-- pitch = pitches[index, t] where index = magnitudes[:, t].argmax()
(lines 72-73). -/
def framePitch (frame : List ℚ × List ℚ) : ℚ :=
  frame.1.getD (argmax frame.2) 0

/-- The pitch_values list collected by the loop (lines 70-75): one entry per
frame whose selected pitch is strictly positive, in frame order. -/
def collectPitches (frames : List (List ℚ × List ℚ)) : List ℚ :=
  frames.filterMap (fun fr => if framePitch fr > 0 then some (framePitch fr) else none)

/-- np.mean. -/
def listMean (l : List ℚ) : ℚ := l.sum / l.length

/-- Population variance, the square of np.std. -/
def listVar (l : List ℚ) : ℚ :=
  ((l.map (fun x => (x - listMean l)^2)).sum) / l.length

/-- np.max of a nonempty list (0 on empty, never used there). -/
def listMax : List ℚ → ℚ
  | [] => 0
  | x :: xs => xs.foldl max x

/-- np.min of a nonempty list (0 on empty, never used there). -/
def listMin : List ℚ → ℚ
  | [] => 0
  | x :: xs => xs.foldl min x

/-- The (pitch_mean, pitch_std, pitch_range) triple set by lines 77-84:
if any positive pitch was collected, the mean, standard deviation
(np.std, the real square root of the population variance) and max - min of
the collected values; otherwise the literal defaults (0.0, 0.0, 0.0).
The standard deviation is the one real-valued (non-rational) quantity. -/
noncomputable def pitchStats (frames : List (List ℚ × List ℚ)) : ℚ × ℝ × ℚ :=
  let vals := collectPitches frames
  if vals.isEmpty then (0, 0, 0)
  else (listMean vals, Real.sqrt (listVar vals), listMax vals - listMin vals)

/-! ### Concrete inputs used by the theorems below -/

/-- The literal feature vector of the spec's rule-7 override test
(spec section 8): flatness 0.05 with every other feature favouring HUMAN. -/
def fvOverrideSample : Features :=
  { spectral_flatness_std := 5/100, pitch_std := 500, pitch_range := 4000,
    zcr_std := 2/10, rms_std := 1/2, mfcc_var := [50],
    spectral_bandwidth_std := 1000, spectral_contrast_std := 50 }

/-- A vector on which the winning label is HUMAN but the reason
"Unnatural pitch consistency" survives the human keyword filter because
"natural" is a substring of "unnatural". -/
def fvHumanLeak : Features :=
  { spectral_flatness_std := 2/10, pitch_std := 10, pitch_range := 0,
    zcr_std := 5/100, rms_std := 5/100, mfcc_var := [10],
    spectral_bandwidth_std := 1000, spectral_contrast_std := 10 }

/-- A vector producing the tie ai_score = human_score = 5. -/
def fvTie : Features :=
  { spectral_flatness_std := 1/10, pitch_std := 10, pitch_range := 0,
    zcr_std := 5/100, rms_std := 1/2, mfcc_var := [50],
    spectral_bandwidth_std := 1000, spectral_contrast_std := 50 }

/-- A piptrack output whose single frame selects a zero pitch:
magnitudes column [1, 2] has its argmax at index 1, where the pitch is 0. -/
def framesSilent : List (List ℚ × List ℚ) := [([0, 0], [1, 2])]

/-- A piptrack output whose single frame selects the positive pitch 3. -/
def framesVoiced : List (List ℚ × List ℚ) := [([7, 3], [1, 2])]

end AudioProcessor

namespace AudioProcessor

/-! ### Helper lemmas -/

theorem toList_append (a b : String) :
    (a ++ b).toList = a.toList ++ b.toList := by
  simp [String.toList]

theorem confidenceScore_eq (f : Features) :
    (classify_voice f).confidenceScore =
      round2 (clampConfidence (rawConfidence f)) := by
  unfold classify_voice
  split <;> rfl

theorem classification_eq (f : Features) :
    (classify_voice f).classification =
      if ai_score f > human_score f then "AI_GENERATED" else "HUMAN" := by
  unfold classify_voice
  split <;> simp_all

theorem explanation_eq (f : Features) :
    (classify_voice f).explanation =
      if ai_score f > human_score f then
        mkExplanation aiKeywords (reasonsOf f)
      else mkExplanation humanKeywords (reasonsOf f) := by
  unfold classify_voice
  split <;> simp_all

theorem clamp_lb (c : ℚ) : 55/100 ≤ clampConfidence c :=
  le_max_left _ _

theorem clamp_ub (c : ℚ) : clampConfidence c ≤ 95/100 :=
  max_le (by norm_num) (min_le_left _ _)

theorem roundHalfEven_bounds {y : ℚ} {a b : ℤ}
    (ha : (a : ℚ) ≤ y) (hb : y ≤ (b : ℚ)) :
    a ≤ roundHalfEven y ∧ roundHalfEven y ≤ b := by
  have hfa : a ≤ ⌊y⌋ := Int.le_floor.mpr ha
  have hfb : ⌊y⌋ ≤ b := by
    have h := (Int.floor_le y).trans hb
    exact_mod_cast h
  have hfloor : (⌊y⌋ : ℚ) ≤ y := Int.floor_le y
  have hnext : ∀ h : ¬ y - ⌊y⌋ < 1/2, ⌊y⌋ < b := by
    intro h
    push_neg at h
    have : (⌊y⌋ : ℚ) < (b : ℚ) := by linarith
    exact_mod_cast this
  simp only [roundHalfEven]
  split_ifs with h1 h2 h3
  · exact ⟨hfa, hfb⟩
  · have := hnext h1
    omega
  · exact ⟨hfa, hfb⟩
  · have := hnext h1
    omega

theorem round2_bounds {x : ℚ} (h1 : 55/100 ≤ x) (h2 : x ≤ 95/100) :
    55/100 ≤ round2 x ∧ round2 x ≤ 95/100 := by
  have ha : ((55 : ℤ) : ℚ) ≤ 100 * x := by push_cast; linarith
  have hb : 100 * x ≤ ((95 : ℤ) : ℚ) := by push_cast; linarith
  obtain ⟨l, u⟩ := roundHalfEven_bounds ha hb
  have l' : (55 : ℚ) ≤ (roundHalfEven (100 * x) : ℚ) := by exact_mod_cast l
  have u' : (roundHalfEven (100 * x) : ℚ) ≤ 95 := by exact_mod_cast u
  unfold round2
  constructor <;> linarith

theorem rule1_reasons_sub (f : Features) :
    ∀ r ∈ (rule1 f).2.2, r ∈ reasonTable := by
  intro r hr
  unfold rule1 at hr
  split_ifs at hr <;>
    simp only [List.mem_singleton, List.not_mem_nil] at hr <;>
    (subst hr; decide)

theorem rule2_reasons_sub (f : Features) :
    ∀ r ∈ (rule2 f).2.2, r ∈ reasonTable := by
  intro r hr
  unfold rule2 at hr
  split_ifs at hr <;>
    simp only [List.mem_singleton, List.not_mem_nil] at hr <;>
    (subst hr; decide)

theorem rule3_reasons_sub (f : Features) :
    ∀ r ∈ (rule3 f).2.2, r ∈ reasonTable := by
  intro r hr
  unfold rule3 at hr
  split_ifs at hr <;>
    simp only [List.mem_singleton, List.not_mem_nil] at hr
  subst hr
  decide

theorem rule4_reasons_sub (f : Features) :
    ∀ r ∈ (rule4 f).2.2, r ∈ reasonTable := by
  intro r hr
  unfold rule4 at hr
  split_ifs at hr <;>
    simp only [List.mem_singleton, List.not_mem_nil] at hr
  subst hr
  decide

theorem rule5_reasons_sub (f : Features) :
    ∀ r ∈ (rule5 f).2.2, r ∈ reasonTable := by
  intro r hr
  unfold rule5 at hr
  split_ifs at hr <;>
    simp only [List.mem_singleton, List.not_mem_nil] at hr
  subst hr
  decide

theorem rule7_reasons_sub (f : Features) :
    ∀ r ∈ (rule7 f).2.2, r ∈ reasonTable := by
  intro r hr
  unfold rule7 at hr
  split_ifs at hr <;>
    simp only [List.mem_singleton, List.not_mem_nil] at hr <;>
    (subst hr; decide)

theorem overrideRule_reasons_sub (f : Features) :
    ∀ r ∈ (overrideRule f).2, r ∈ reasonTable := by
  intro r hr
  unfold overrideRule at hr
  split_ifs at hr <;>
    simp only [List.mem_singleton, List.not_mem_nil] at hr
  subst hr
  decide

theorem reasonsOf_sub (f : Features) :
    ∀ r ∈ reasonsOf f, r ∈ reasonTable := by
  intro r hr
  unfold reasonsOf at hr
  simp only [List.mem_append] at hr
  repeat' rcases hr with hr | hr
  all_goals
    first
      | exact overrideRule_reasons_sub f r hr
      | exact rule1_reasons_sub f r hr
      | exact rule2_reasons_sub f r hr
      | exact rule3_reasons_sub f r hr
      | exact rule4_reasons_sub f r hr
      | exact rule5_reasons_sub f r hr
      | exact rule7_reasons_sub f r hr

theorem rule1_reasons_ne_nil (f : Features) : (rule1 f).2.2 ≠ [] := by
  unfold rule1
  split_ifs <;> simp

theorem reasonsOf_ne_nil (f : Features) : reasonsOf f ≠ [] := by
  intro h
  unfold reasonsOf at h
  simp only [List.append_eq_nil] at h
  exact rule1_reasons_ne_nil f h.1.2.1.1.1.1

theorem reasonTable_strings_ne_nil :
    ∀ r ∈ reasonTable, r.toList ≠ [] := by
  decide

theorem joinSemi_head_pre (x : String) (xs : List String) :
    x.toList <+: (joinSemi (x :: xs)).toList := by
  cases xs with
  | nil => exact List.prefix_rfl
  | cons y ys =>
      show x.toList <+: ((x ++ "; ") ++ joinSemi (y :: ys)).toList
      rw [toList_append, toList_append, List.append_assoc]
      exact List.prefix_append _ _

theorem mkExplanation_contains (kws reasons : List String)
    (hne : reasons ≠ []) (hsub : ∀ r ∈ reasons, r ∈ reasonTable) :
    ∃ r, r ∈ reasonTable ∧
      r.toList <:+: (mkExplanation kws reasons).toList := by
  simp only [mkExplanation]
  rcases hsel : reasons.filter (matchesAny kws) with _ | ⟨s, ss⟩
  · simp only [List.isEmpty_nil, if_true]
    cases reasons with
    | nil => exact absurd rfl hne
    | cons a as =>
        exact ⟨a, hsub a (List.mem_cons_self a as),
          by simp only [List.headD_cons]; exact List.infix_rfl⟩
  · simp only [List.isEmpty_cons, Bool.false_eq_true, if_false]
    have hs : s ∈ reasons :=
      List.mem_of_mem_filter (hsel ▸ List.mem_cons_self s ss)
    refine ⟨s, hsub s hs, ?_⟩
    have htake : (s :: ss).take 3 = s :: ss.take 2 := rfl
    rw [htake]
    exact (joinSemi_head_pre s (ss.take 2)).isInfix

end AudioProcessor

namespace AudioProcessor

/-! ### Claim theorems -/

/-- C1: for every feature vector the confidenceScore returned by
classify_voice lies in [0.55, 0.95] inclusive; the confidence computed in
the total = 0 branch (0.5) is clamped up to exactly 0.55. -/
theorem C1_confidence_bounds (f : Features) :
    55/100 ≤ (classify_voice f).confidenceScore ∧
    (classify_voice f).confidenceScore ≤ 95/100 ∧
    clampConfidence (1/2) = 55/100 ∧
    round2 (clampConfidence (1/2)) = 55/100 := by
  rw [confidenceScore_eq]
  obtain ⟨l, u⟩ :=
    round2_bounds (clamp_lb (rawConfidence f)) (clamp_ub (rawConfidence f))
  have hclamp : clampConfidence (1/2) = 55/100 := by
    unfold clampConfidence
    rw [min_eq_right (by norm_num), max_eq_left (by norm_num)]
  refine ⟨l, u, hclamp, ?_⟩
  rw [hclamp]
  unfold round2
  have h55 : roundHalfEven (100 * (55/100)) = 55 := by
    have : (100 : ℚ) * (55/100) = ((55 : ℤ) : ℚ) := by norm_num
    rw [this]
    simp [roundHalfEven, Int.floor_intCast]
  rw [h55]
  norm_num

/-- C9: every branch of rules 1, 3, 4, 5 and the spectral-contrast rule
increments one of the two scores, so the total score is positive, the
total = 0 neutral branch is unreachable, and the confidence division never
divides by zero. -/
theorem C9_total_score_positive (f : Features) :
    1 ≤ (rule1 f).1 + (rule1 f).2.1 ∧
    1 ≤ (rule3 f).1 + (rule3 f).2.1 ∧
    1 ≤ (rule4 f).1 + (rule4 f).2.1 ∧
    1 ≤ (rule5 f).1 + (rule5 f).2.1 ∧
    1 ≤ (rule7 f).1 + (rule7 f).2.1 ∧
    0 < total_score f ∧
    rawConfidence f =
      (max (ai_score f) (human_score f) : ℚ) / (total_score f : ℚ) := by
  have h1 : 1 ≤ (rule1 f).1 + (rule1 f).2.1 := by
    unfold rule1; split_ifs <;> norm_num
  have h3 : 1 ≤ (rule3 f).1 + (rule3 f).2.1 := by
    unfold rule3; split_ifs <;> norm_num
  have h4 : 1 ≤ (rule4 f).1 + (rule4 f).2.1 := by
    unfold rule4; split_ifs <;> norm_num
  have h5 : 1 ≤ (rule5 f).1 + (rule5 f).2.1 := by
    unfold rule5; split_ifs <;> norm_num
  have h7 : 1 ≤ (rule7 f).1 + (rule7 f).2.1 := by
    unfold rule7; split_ifs <;> norm_num
  have ht : 0 < total_score f := by
    unfold total_score ai_score human_score
    omega
  refine ⟨h1, h3, h4, h5, h7, ht, ?_⟩
  unfold rawConfidence
  rw [if_pos ht]

/-- C4: classify_voice labels AI_GENERATED exactly when ai_score exceeds
human_score once all rules have run, and HUMAN otherwise; a tie goes to
HUMAN. -/
theorem C4_label_rule (f : Features) :
    (classify_voice f).classification =
      (if ai_score f > human_score f then "AI_GENERATED" else "HUMAN") ∧
    (ai_score f = human_score f →
      (classify_voice f).classification = "HUMAN") := by
  refine ⟨classification_eq f, ?_⟩
  intro h
  rw [classification_eq, if_neg]
  omega

/-- C4 witness: a concrete tie (ai_score = human_score = 5) resolves to
HUMAN. -/
theorem C4_label_rule_witness :
    ai_score fvTie = human_score fvTie ∧
    (classify_voice fvTie).classification = "HUMAN" := by
  have htie : ai_score fvTie = human_score fvTie := by
    norm_num [ai_score, human_score, fvTie, rule1, rule2, rule3, rule4,
      rule5, rule6, overrideRule, rule7]
  exact ⟨htie, (C4_label_rule fvTie).2 htie⟩

/-- C3: whenever spectral_flatness_std < 0.06, rule 1 contributes 4 to
ai_score with reason "Synthetic spectral structure detected", the override
contributes 6 more with "Strong synthetic spectral signature" placed at the
front of the reason list, and ai_score receives at least 10 from spectral
flatness alone. -/
theorem C3_double_scoring (f : Features)
    (h : f.spectral_flatness_std < 6/100) :
    rule1 f = (4, 0, ["Synthetic spectral structure detected"]) ∧
    overrideRule f = (6, ["Strong synthetic spectral signature"]) ∧
    (reasonsOf f).head? = some "Strong synthetic spectral signature" ∧
    10 ≤ ai_score f := by
  have h1 : rule1 f = (4, 0, ["Synthetic spectral structure detected"]) := by
    unfold rule1; rw [if_pos h]
  have hov : overrideRule f = (6, ["Strong synthetic spectral signature"]) := by
    unfold overrideRule; rw [if_pos h]
  refine ⟨h1, hov, ?_, ?_⟩
  · unfold reasonsOf
    rw [hov]
    rfl
  · have e1 : (rule1 f).1 = 4 := by rw [h1]
    have e2 : (overrideRule f).1 = 6 := by rw [hov]
    unfold ai_score
    omega

/-- C3 witness: the double scoring at the concrete flatness 0.05 vector. -/
theorem C3_double_scoring_witness :
    fvOverrideSample.spectral_flatness_std < 6/100 ∧
    (rule1 fvOverrideSample =
      (4, 0, ["Synthetic spectral structure detected"]) ∧
    overrideRule fvOverrideSample =
      (6, ["Strong synthetic spectral signature"]) ∧
    (reasonsOf fvOverrideSample).head? =
      some "Strong synthetic spectral signature" ∧
    10 ≤ ai_score fvOverrideSample) :=
  ⟨by norm_num [fvOverrideSample],
   C3_double_scoring fvOverrideSample (by norm_num [fvOverrideSample])⟩


/-- C6: process_voice surfaces a parse/resample failure as
"Invalid audio format: <details>", every other exception as
"Processing failed: <details>", never returns a failure as a success, and
performs no retry (each outcome maps to exactly one response). -/
theorem C6_error_mapping (d language : String) (f : Features) :
    process_voice (.parameterError d) language =
      .error ("Invalid audio format: " ++ d) ∧
    process_voice (.otherError d) language =
      .error ("Processing failed: " ++ d) ∧
    (process_voice (.parameterError d) language).isSuccess = false ∧
    (process_voice (.otherError d) language).isSuccess = false ∧
    (process_voice (.ok f) language).isSuccess = true :=
  ⟨rfl, rfl, rfl, rfl, rfl⟩

/-- C8: for a fixed audio input the classification, confidenceScore and
explanation of process_voice do not depend on the language string, and on
success the language field is the input language unchanged. -/
theorem C8_language_independence :
    (∀ (extract : List ℕ → LoadOutcome) (audio : List ℕ) (l1 l2 : String),
      (process_voice (extract audio) l1).classificationField =
        (process_voice (extract audio) l2).classificationField ∧
      (process_voice (extract audio) l1).confidenceField =
        (process_voice (extract audio) l2).confidenceField ∧
      (process_voice (extract audio) l1).explanationField =
        (process_voice (extract audio) l2).explanationField) ∧
    (∀ (f : Features) (language : String),
      (process_voice (.ok f) language).languageField = some language) := by
  constructor
  · intro extract audio l1 l2
    cases extract audio <;>
      simp [process_voice, Response.classificationField,
        Response.confidenceField, Response.explanationField]
  · intro f language
    rfl

/-- C7: the explanation is never empty and always contains one of the rule
table's reason strings as a substring; it is built by keyword-filtering the
collected reasons for the winning label, joining the first up to 3 matches
with "; ", and falling back to the first (post-override-reordering) reason
when nothing matches. -/
theorem C7_explanation_contains_reason (f : Features) :
    0 < (classify_voice f).explanation.length ∧
    (∃ r, r ∈ reasonTable ∧
      r.toList <:+: (classify_voice f).explanation.toList) ∧
    (classify_voice f).explanation =
      mkExplanation
        (if ai_score f > human_score f then aiKeywords else humanKeywords)
        (reasonsOf f) := by
  have hmain : ∃ r, r ∈ reasonTable ∧
      r.toList <:+: (classify_voice f).explanation.toList := by
    rw [explanation_eq]
    split
    · exact mkExplanation_contains aiKeywords (reasonsOf f)
        (reasonsOf_ne_nil f) (reasonsOf_sub f)
    · exact mkExplanation_contains humanKeywords (reasonsOf f)
        (reasonsOf_ne_nil f) (reasonsOf_sub f)
  refine ⟨?_, hmain, ?_⟩
  · obtain ⟨r, hr, hinf⟩ := hmain
    have hlen : r.toList.length ≤ (classify_voice f).explanation.toList.length :=
      hinf.length_le
    have hrne : r.toList ≠ [] := reasonTable_strings_ne_nil r hr
    have hpos : 0 < r.toList.length := List.length_pos.mpr hrne
    have hq : (classify_voice f).explanation.length =
        (classify_voice f).explanation.toList.length := rfl
    omega
  · rw [explanation_eq]
    split <;> rfl


/-- C2: on the literal rule-7 override feature vector (flatness 0.05 and
every other feature favouring HUMAN), ai_score reaches exactly 10
(4 from rule 1 plus 6 from the override), human_score accumulates 7 from the
remaining rules, and the arithmetic winner AI_GENERATED is returned. -/
theorem C2_override_sample_winner :
    (rule1 fvOverrideSample).1 = 4 ∧
    (overrideRule fvOverrideSample).1 = 6 ∧
    ai_score fvOverrideSample = 10 ∧
    human_score fvOverrideSample = 7 ∧
    10 ≤ ai_score fvOverrideSample ∧
    (classify_voice fvOverrideSample).classification = "AI_GENERATED" := by
  have hai : ai_score fvOverrideSample = 10 := by
    norm_num [ai_score, fvOverrideSample, rule1, rule2, rule3, rule4, rule5,
      rule6, overrideRule, rule7]
  have hh : human_score fvOverrideSample = 7 := by
    norm_num [human_score, fvOverrideSample, rule1, rule2, rule3, rule4,
      rule5, rule6, rule7]
  refine ⟨by norm_num [rule1, fvOverrideSample],
    by norm_num [overrideRule, fvOverrideSample], hai, hh, by omega, ?_⟩
  rw [classification_eq, if_pos (by omega)]

/-- C10: because the HUMAN keyword "natural" is a substring of "unnatural",
there is a feature vector labelled HUMAN whose explanation nevertheless
carries the AI-indicative reason "Unnatural pitch consistency". -/
theorem C10_unnatural_keyword_leak :
    ∃ f : Features,
      15/100 ≤ f.spectral_flatness_std ∧ f.pitch_std < 50 ∧
      3/100 ≤ f.zcr_std ∧ 2/100 ≤ f.rms_std ∧ 5 ≤ f.mfcc_var.sum ∧
      5 ≤ f.spectral_contrast_std ∧
      (classify_voice f).classification = "HUMAN" ∧
      ("Unnatural pitch consistency").toList <:+:
        (classify_voice f).explanation.toList := by
  have hai : ai_score fvHumanLeak = 3 := by
    norm_num [ai_score, fvHumanLeak, rule1, rule2, rule3, rule4, rule5,
      rule6, overrideRule, rule7]
  have hh : human_score fvHumanLeak = 6 := by
    norm_num [human_score, fvHumanLeak, rule1, rule2, rule3, rule4, rule5,
      rule6, rule7]
  have hre : reasonsOf fvHumanLeak =
      ["Natural spectral variation", "Unnatural pitch consistency",
       "Dynamic spectral contrast"] := by
    norm_num [reasonsOf, fvHumanLeak, rule1, rule2, rule3, rule4, rule5,
      overrideRule, rule7]
  have hcl : (classify_voice fvHumanLeak).classification = "HUMAN" := by
    rw [classification_eq, if_neg (by omega)]
  have hex : (classify_voice fvHumanLeak).explanation =
      "Natural spectral variation; Unnatural pitch consistency; " ++
        "Dynamic spectral contrast" := by
    rw [explanation_eq, if_neg (by omega), hre]
    decide
  refine ⟨fvHumanLeak, by norm_num [fvHumanLeak], by norm_num [fvHumanLeak],
    by norm_num [fvHumanLeak], by norm_num [fvHumanLeak],
    by norm_num [fvHumanLeak], by norm_num [fvHumanLeak], hcl, ?_⟩
  rw [hex]
  decide

/-- C5: when no frame of the piptrack output selects a strictly positive
pitch, the pitch triple is exactly (0.0, 0.0, 0.0) and no error occurs;
when at least one positive pitch is collected, the triple is the mean,
standard deviation and max minus min of the collected values. -/
theorem C5_pitch_defaults (P : List (List ℚ × List ℚ)) :
    (collectPitches P = [] → pitchStats P = (0, 0, 0)) ∧
    (∀ v rest, collectPitches P = v :: rest →
      pitchStats P = (listMean (v :: rest),
        Real.sqrt (listVar (v :: rest)),
        listMax (v :: rest) - listMin (v :: rest))) := by
  constructor
  · intro h
    simp [pitchStats, h]
  · intro v rest h
    simp [pitchStats, h]

/-- C5 witness: a frame selecting a zero pitch gives the (0, 0, 0) default;
a frame selecting the positive pitch 3 gives mean 3, deviation 0, range 0. -/
theorem C5_pitch_defaults_witness :
    collectPitches framesSilent = [] ∧
    pitchStats framesSilent = (0, 0, 0) ∧
    collectPitches framesVoiced = [3] ∧
    pitchStats framesVoiced = (3, 0, 0) := by
  have h0 : collectPitches framesSilent = [] := by decide
  have h1 : collectPitches framesVoiced = [3] := by decide
  have e1 := (C5_pitch_defaults framesVoiced).2 3 [] h1
  refine ⟨h0, (C5_pitch_defaults framesSilent).1 h0, h1, ?_⟩
  rw [e1]
  have hm : listMean [(3 : ℚ)] = 3 := by
    norm_num [listMean]
  have hv : listVar [(3 : ℚ)] = 0 := by
    norm_num [listVar, listMean]
  have hx : listMax [(3 : ℚ)] - listMin [(3 : ℚ)] = 0 := by
    norm_num [listMax, listMin]
  rw [hm, hv, hx]
  norm_num [Real.sqrt_zero]

end AudioProcessor
